import Mathlib

/-!
Shallow embedding of the OpenAlex-SDK client (src/src/index.ts) and of the
utility layer it imports.  The entity facade methods (`work`, `works`,
`author`, `source`, `institution`, `topic`, `autoCompleteWorks`, `ngram`)
are translated directly from src/src/index.ts.  The utility modules
(`utils/helpers`, `utils/works`, `utils/http`) are not part of the sources;
where a claim depends on them they are modelled from the specification, as
the doc comment of each such definition records.  HTTP is represented by an
explicit oracle `get : String -> Resp _`; every function additionally
returns the list of URLs it fetched, so that "no network call" and
"exactly N fetches" are statable.
-/

namespace OpenAlexSDK

/-- A work entity.  The fields mirror the ones src/src/index.ts touches:
the placeholder built on a failed lookup sets `id`, `biblio`, and
`counts_by_year`; the AbstractArrayToString post-processing reads and
writes `abstract_inverted_index` and `abstract`.  `display_name` stands
for the remaining untouched payload fields. -/
structure Work where
  id : String
  display_name : Option String := none
  biblio : List (String × String) := []
  counts_by_year : List Nat := []
  abstract_inverted_index : Option (List (String × List Nat)) := none
  abstract : Option String := none
deriving Repr, DecidableEq

structure Author where
  id : String := ""
  display_name : String := ""
deriving Repr, DecidableEq

structure Source where
  id : String := ""
  display_name : String := ""
deriving Repr, DecidableEq

structure Institution where
  id : String := ""
  display_name : String := ""
deriving Repr, DecidableEq

structure Topic where
  id : String := ""
  display_name : String := ""
deriving Repr, DecidableEq

/-- Pagination metadata of a list response (`meta` in the OpenAlex payload). -/
structure PageMeta where
  count : Nat := 0
  page : Nat := 1
  perPage : Nat := 25
  nextCursor : Option String := none
  url : Option String := none
deriving Repr, DecidableEq

/-- A list-response payload: `{ results, meta }`. -/
structure Works where
  results : List Work := []
  meta : PageMeta := {}
deriving Repr, DecidableEq

/-- An HTTP response as seen by the SDK after `GET`: status, statusText and
the decoded body. -/
structure Resp (α : Type) where
  status : Nat
  statusText : String
  data : α
deriving Repr, DecidableEq

/-- The error message built by every `throw new Error` in src/src/index.ts:
`Error ${response.status}: ${response.statusText}`. -/
def errMsg (status : Nat) (text : String) : String :=
  "Error " ++ Nat.repr status ++ ": " ++ text

/-- JavaScript truthiness of an optional number (`startPage && endPage`):
`undefined` and `0` are falsy. -/
def truthyNat : Option Nat → Bool
  | some n => n != 0
  | none => false

/-- An export-sink write: the file name written and the results written to it. -/
abbrev ExportEvent := String × List Work

/-- The placeholder entity `work` returns when the lookup does not succeed
(src/src/index.ts lines 90-94): the requested id with empty `biblio` and
empty `counts_by_year`. -/
def emptyWork (id : String) : Work :=
  { id := id, biblio := [], counts_by_year := [] }

/-- The `work` method (src/src/index.ts lines 76-95): builds the URL
(external-id form when `externalIds` is given), issues one GET, returns the
body on 200 and otherwise logs and returns the placeholder `emptyWork id`.
It never throws.  The second component is the list of URLs fetched. -/
def workM (baseUrl id : String) (externalIds : Option String)
    (get : String → Resp Work) : Except String Work × List String :=
  let url := match externalIds with
    | some e => baseUrl ++ "/works/" ++ e ++ ":" ++ id
    | none => baseUrl ++ "/works/" ++ id
  let r := get url
  (if r.status = 200 then Except.ok r.data else Except.ok (emptyWork id), [url])

/-- The `author` method (src/src/index.ts lines 332-342): one GET, body on
200, otherwise `throw new Error` carrying status and statusText. -/
def authorM (baseUrl id : String) (externalIds : Option String)
    (get : String → Resp Author) : Except String Author × List String :=
  let url := match externalIds with
    | some e => baseUrl ++ "/authors/" ++ e ++ ":" ++ id
    | none => baseUrl ++ "/authors/" ++ id
  let r := get url
  (if r.status = 200 then Except.ok r.data
   else Except.error (errMsg r.status r.statusText), [url])

/-- The `source` method (src/src/index.ts lines 484-494): same shape as
`author` with the `sources` path segment. -/
def sourceM (baseUrl id : String) (externalIds : Option String)
    (get : String → Resp Source) : Except String Source × List String :=
  let url := match externalIds with
    | some e => baseUrl ++ "/sources/" ++ e ++ ":" ++ id
    | none => baseUrl ++ "/sources/" ++ id
  let r := get url
  (if r.status = 200 then Except.ok r.data
   else Except.error (errMsg r.status r.statusText), [url])

/-- The `institution` method (src/src/index.ts lines 574-584): same shape
as `author` with the `institutions` path segment. -/
def institutionM (baseUrl id : String) (externalIds : Option String)
    (get : String → Resp Institution) : Except String Institution × List String :=
  let url := match externalIds with
    | some e => baseUrl ++ "/institutions/" ++ e ++ ":" ++ id
    | none => baseUrl ++ "/institutions/" ++ id
  let r := get url
  (if r.status = 200 then Except.ok r.data
   else Except.error (errMsg r.status r.statusText), [url])

/-- The `topic` method (src/src/index.ts lines 669-679): rejects a falsy id
with `throw new Error('Topic id is required')` before any request; then one
GET, body on 200, otherwise a thrown error carrying status and statusText. -/
def topicM (baseUrl id : String)
    (get : String → Resp Topic) : Except String Topic × List String :=
  if id = "" then (Except.error "Topic id is required", [])
  else
    let url := baseUrl ++ "/topics/" ++ id
    let r := get url
    (if r.status = 200 then Except.ok r.data
     else Except.error (errMsg r.status r.statusText), [url])

/-- The `autoCompleteWorks` method (src/src/index.ts lines 289-298). -/
def autoCompleteWorksM (baseUrl search : String)
    (get : String → Resp Works) : Except String Works × List String :=
  let url := baseUrl ++ "/autocomplete/works?q=" ++ search
  let r := get url
  (if r.status = 200 then Except.ok r.data
   else Except.error (errMsg r.status r.statusText), [url])

/-- The `ngram` method (src/src/index.ts lines 311-320). -/
def ngramM (baseUrl id : String)
    (get : String → Resp Work) : Except String Work × List String :=
  let url := baseUrl ++ "/works/" ++ id ++ "/ngram"
  let r := get url
  (if r.status = 200 then Except.ok r.data
   else Except.error (errMsg r.status r.statusText), [url])

/-- Modelled from the spec: `buildUrl` lives in utils/helpers, which is not
under src/.  Spec section 4.1 and 6: the builder composes host/collection
with query parameters for `search`, `filter` (colon-joined key:value
clauses, comma-joined between clauses), `group_by` and `sort`, in a fixed
deterministic order, with no network access.  A search with a `searchField`
is encoded as a `field.search:value` filter clause. -/
def buildUrl (host collection : String) (search searchField : Option String)
    (filter : List (String × String)) (groupBy : Option String)
    (sortBy : Option (String × String)) : String :=
  let searchParams : List String :=
    match search, searchField with
    | some s, some f => ["filter=" ++ f ++ ".search:" ++ s]
    | some s, none => ["search=" ++ s]
    | none, _ => []
  let filterParams : List String :=
    if filter = [] then []
    else ["filter=" ++ String.intercalate "," (filter.map (fun kv => kv.1 ++ ":" ++ kv.2))]
  let groupParams : List String :=
    match groupBy with
    | some g => ["group_by=" ++ g]
    | none => []
  let sortParams : List String :=
    match sortBy with
    | some sb => ["sort=" ++ sb.1 ++ ":" ++ sb.2]
    | none => []
  host ++ "/" ++ collection ++ "?" ++
    String.intercalate "&" (searchParams ++ filterParams ++ groupParams ++ sortParams)

/-- The URL-builder inputs bundled, for stating determinism. -/
structure UrlInputs where
  host : String
  collection : String
  search : Option String
  searchField : Option String
  filter : List (String × String)
  groupBy : Option String
  sortBy : Option (String × String)
deriving Repr, DecidableEq

/-- `buildUrl` applied to a bundle of inputs. -/
def buildUrlOf (i : UrlInputs) : String :=
  buildUrl i.host i.collection i.search i.searchField i.filter i.groupBy i.sortBy

/-- Modelled from the spec: `appendCursorToUrl` lives in utils/helpers,
which is not under src/.  Spec section 4.3: the pagination query
parameters `per-page` and `cursor` are appended to a builder-produced URL
(perPage defaulting to 25 when the caller gave none). -/
def appendCursorToUrl (url : String) (perPage : Option Nat) (cursor : String) : String :=
  url ++ "&per-page=" ++ Nat.repr (perPage.getD 25) ++ "&cursor=" ++ cursor

/-- Insertion of a positioned word into a position-sorted list, used by the
modelled inverted-index conversion. -/
def insertByPos (x : Nat × String) : List (Nat × String) → List (Nat × String)
  | [] => [x]
  | y :: ys => if x.1 ≤ y.1 then x :: y :: ys else y :: insertByPos x ys

/-- Position-sort of a list of (position, word) pairs. -/
def sortByPos : List (Nat × String) → List (Nat × String)
  | [] => []
  | x :: xs => insertByPos x (sortByPos xs)

/-- Modelled from the spec: `convertAbstractArrayToString` lives in
utils/helpers, which is not under src/.  Spec section 4.5 calls it a pure
data transform converting an inverted-index abstract representation into
plain text: each word is placed at its listed positions and the words are
emitted in position order, space-separated. -/
def convertAbstractArrayToString (idx : List (String × List Nat)) : String :=
  let positioned := (idx.map (fun wp => wp.2.map (fun p => (p, wp.1)))).flatten
  String.intercalate " " ((sortByPos positioned).map (fun pw => pw.2))

/-- The per-result AbstractArrayToString transform of the `works` method
(src/src/index.ts lines 221-228): when the inverted index is present the
converted plain text is stored in `abstract`; the inverted index is deleted
in either case; everything else is untouched. -/
def abstractTransform (w : Work) : Work :=
  match w.abstract_inverted_index with
  | some idx =>
      { w with abstract := some (convertAbstractArrayToString idx),
               abstract_inverted_index := none }
  | none => { w with abstract_inverted_index := none }

/-- The name of the cursor that yields 0-indexed page `k` of a collection:
page 0 is reached from the start sentinel `*`; deeper pages are reached
from the opaque token the previous page reported. -/
def cursorName : Nat → String
  | 0 => "*"
  | k + 1 => "cursor" ++ Nat.repr (k + 1)

/-- Modelled from the spec: the cursor-resolution loop of `getCursorByPage`
(utils/helpers, not under src/).  Spec section 4.2: each step fetches one
page, discards the body and retains only its `nextCursor`; a 404 or a
missing `nextCursor` ends the walk returning the last known cursor (soft
landing); any other non-2xx propagates as a transport error. -/
def cursorLoop (get : String → Resp Works) (url : String) (perPage : Option Nat) :
    Nat → String → Except String String × List String
  | 0, c => (Except.ok c, [])
  | n + 1, c =>
    let u := appendCursorToUrl url perPage c
    let r := get u
    if r.status = 404 then (Except.ok c, [u])
    else if r.status < 200 ∨ 300 ≤ r.status then
      (Except.error (errMsg r.status r.statusText), [u])
    else
      match r.data.meta.nextCursor with
      | some next =>
          let rest := cursorLoop get url perPage n next
          (rest.1, u :: rest.2)
      | none => (Except.ok c, [u])

/-- Modelled from the spec: `getCursorByPage` lives in utils/helpers, which
is not under src/.  Spec section 4.2: for a target page of at most 1 (or no
target page) the start sentinel `*` is returned without any request;
otherwise `targetPage - 1` sequential fetches are replayed from the
sentinel, returning the cursor that yields the target page. -/
def getCursorByPage (get : String → Resp Works) (url : String)
    (page perPage : Option Nat) : Except String String × List String :=
  match page with
  | none => (Except.ok "*", [])
  | some t => if t ≤ 1 then (Except.ok "*", []) else cursorLoop get url perPage (t - 1) "*"

/-- Modelled from the spec: `validateParameters` lives in utils/works,
which is not under src/.  Its TypeScript signature is
(retriveAllPages, startPage, endPage, searchField, chunkSize, toCsv, toJson).
Spec sections 3 and 7: `startPage`/`endPage` and drain-to-completion are
mutually exclusive, and `startPage` without `endPage` is rejected; the
violations raise a validation error at entry, never a silent correction. -/
def validateParameters (retriveAllPages : Bool) (startPage endPage : Option Nat)
    (searchField : Option String) (chunkSize : Option Nat)
    (toCsv toJson : Option String) : Except String Unit :=
  if retriveAllPages && (truthyNat startPage || truthyNat endPage) then
    Except.error "startPage/endPage cannot be used with retriveAllPages"
  else if truthyNat startPage && !truthyNat endPage then
    Except.error "startPage requires endPage"
  else Except.ok ()

/-- The export events of a final (non-chunked) result: one write per
configured sink, `<name>.json` and `<name>.csv`. -/
def finalExports (toJson toCsv : Option String) (rs : List Work) : List ExportEvent :=
  (toJson.map (fun n => (n ++ ".json", rs))).toList ++
    (toCsv.map (fun n => (n ++ ".csv", rs))).toList

/-- Modelled from the spec: the fetch-advance loop shared by
`handleMultiplePages` and `handleAllPages` (utils/works, not under src/).
Spec section 4.4: repeatedly fetch at the current cursor and advance to the
page's `nextCursor`, concatenating results in fetch order, until the page
budget is spent or the cursor is absent; a 404 is an empty terminal page;
any other non-200 aborts with a transport error.  `tf` is the per-page
result transform (the works AbstractArrayToString post-processing). -/
def windowLoop (get : String → Resp Works) (url : String) (perPage : Option Nat)
    (tf : List Work → List Work) :
    Nat → Option String → List Work → Except String (List Work) × List String
  | _, none, acc => (Except.ok acc, [])
  | 0, some _, acc => (Except.ok acc, [])
  | n + 1, some c, acc =>
    let u := appendCursorToUrl url perPage c
    let r := get u
    if r.status = 200 then
      let rest := windowLoop get url perPage tf n r.data.meta.nextCursor (acc ++ tf r.data.results)
      (rest.1, u :: rest.2)
    else if r.status = 404 then (Except.ok acc, [u])
    else (Except.error (errMsg r.status r.statusText), [u])

/-- Modelled from the spec: `handleMultiplePages` lives in utils/works,
which is not under src/.  Spec section 4.4 mode 2: starting from the
already-fetched `startPage` response, fetch-advance until `endPage`
(inclusive) or exhaustion, concatenating results; `meta.page` is
`startPage` and `meta.count`/`perPage` come from the first page; the final
window is handed to the export sinks. -/
def handleMultiplePages (get : String → Resp Works) (startPage endPage : Nat)
    (url : String) (perPage : Option Nat) (first : Works)
    (toJson toCsv : Option String) (abs : Bool) :
    Except String Works × List ExportEvent × List String :=
  let tf : List Work → List Work := if abs then (fun l => l.map abstractTransform) else id
  let w := windowLoop get url perPage tf (endPage - startPage) first.meta.nextCursor first.results
  match w.1 with
  | Except.ok rs =>
      (Except.ok { results := rs, meta := { first.meta with page := startPage } },
       finalExports toJson toCsv rs, w.2)
  | Except.error e => (Except.error e, [], w.2)

/-- Modelled from the spec: `handleAllPages` lives in utils/works, which is
not under src/.  Spec section 4.4 mode 3 (monolithic): starting from the
already-fetched first page, fetch-advance until `nextCursor` is absent,
returning one accumulated window.  `fuel` bounds the loop in the embedding;
theorems supply fuel at least the page count. -/
def handleAllPages (get : String → Resp Works) (fuel : Nat) (url : String)
    (perPage : Option Nat) (first : Works) (toJson toCsv : Option String)
    (abs : Bool) : Except String Works × List ExportEvent × List String :=
  let tf : List Work → List Work := if abs then (fun l => l.map abstractTransform) else id
  let w := windowLoop get url perPage tf fuel first.meta.nextCursor first.results
  match w.1 with
  | Except.ok rs =>
      (Except.ok { results := rs, meta := first.meta },
       finalExports toJson toCsv rs, w.2)
  | Except.error e => (Except.error e, [], w.2)

/-- Full chunks of size `cs` takeable from the front of `acc`, with the
remainder of length below `cs` (the carry kept in memory between flushes).
The inner fuel is the list length, enough since every step drops `cs` at
least 1 elements. -/
def fullChunksAux (cs : Nat) : Nat → List Work → List (List Work) × List Work
  | 0, acc => ([], acc)
  | f + 1, acc =>
    if 0 < cs ∧ cs ≤ acc.length then
      let rest := fullChunksAux cs f (acc.drop cs)
      (acc.take cs :: rest.1, rest.2)
    else ([], acc)

/-- Full chunks of size `cs` from `acc` plus the remainder. -/
def fullChunks (cs : Nat) (acc : List Work) : List (List Work) × List Work :=
  fullChunksAux cs acc.length acc

/-- The write events of one flushed chunk: `<name>_<idx>.json` and
`<name>_<idx>.csv` for the configured sinks (the chunk index is appended to
the filename stem). -/
def flushOne (toJson toCsv : Option String) (idx : Nat) (chunk : List Work) :
    List ExportEvent :=
  (toJson.map (fun n => (n ++ "_" ++ Nat.repr idx ++ ".json", chunk))).toList ++
    (toCsv.map (fun n => (n ++ "_" ++ Nat.repr idx ++ ".csv", chunk))).toList

/-- The write events of a list of flushed chunks, numbering them from `idx`. -/
def flushEvents (toJson toCsv : Option String) (idx : Nat) :
    List (List Work) → List ExportEvent
  | [] => []
  | c :: cs => flushOne toJson toCsv idx c ++ flushEvents toJson toCsv (idx + 1) cs

/-- Modelled from the spec: the drain loop of `handleAllPagesInChunks`
(utils/works, not under src/).  Spec section 4.4 mode 3 (chunked):
accumulate fetched results; each time the running count reaches the chunk
size, flush a chunk of exactly that size to the export sink and keep the
remainder; when the cursor is absent the final partial chunk is flushed;
nothing is accumulated for the caller. -/
def chunkLoop (get : String → Resp Works) (url : String) (perPage : Option Nat)
    (tf : List Work → List Work) (cs : Nat) (toJson toCsv : Option String) :
    Nat → Option String → List Work → Nat →
    Except String Unit × List ExportEvent × List String
  | _, none, acc, idx =>
    (Except.ok (), if acc = [] then [] else flushOne toJson toCsv idx acc, [])
  | 0, some _, acc, idx =>
    (Except.ok (), if acc = [] then [] else flushOne toJson toCsv idx acc, [])
  | f + 1, some c, acc, idx =>
    let u := appendCursorToUrl url perPage c
    let r := get u
    if r.status = 200 then
      let acc2 := acc ++ tf r.data.results
      let split := fullChunks cs acc2
      let evs := flushEvents toJson toCsv idx split.1
      let rest := chunkLoop get url perPage tf cs toJson toCsv f
        r.data.meta.nextCursor split.2 (idx + split.1.length)
      (rest.1, evs ++ rest.2.1, u :: rest.2.2)
    else if r.status = 404 then
      (Except.ok (), if acc = [] then [] else flushOne toJson toCsv idx acc, [u])
    else (Except.error (errMsg r.status r.statusText), [], [u])

/-- Modelled from the spec: `handleAllPagesInChunks` lives in utils/works,
which is not under src/.  Spec section 4.4 mode 3 (chunked): the
already-fetched first page seeds the accumulator, full chunks are flushed
as soon as they are complete, and the drain continues from the first page's
`nextCursor`; the collected results are not returned. -/
def handleAllPagesInChunks (get : String → Resp Works) (fuel : Nat) (url : String)
    (perPage : Option Nat) (first : Works) (toJson toCsv : Option String)
    (abs : Bool) (cs : Nat) : Except String Unit × List ExportEvent × List String :=
  let tf : List Work → List Work := if abs then (fun l => l.map abstractTransform) else id
  let split := fullChunks cs first.results
  let evs := flushEvents toJson toCsv 1 split.1
  let rest := chunkLoop get url perPage tf cs toJson toCsv fuel
    first.meta.nextCursor split.2 (1 + split.1.length)
  (rest.1, evs ++ rest.2.1, rest.2.2)

/-- The search parameters of the `works` method (src/types/work
SearchParameters): all fields optional in TypeScript; booleans are falsy
when absent. -/
structure SearchParameters where
  search : Option String := none
  searchField : Option String := none
  perPage : Option Nat := none
  page : Option Nat := none
  retriveAllPages : Bool := false
  toCsv : Option String := none
  toJson : Option String := none
  startPage : Option Nat := none
  endPage : Option Nat := none
  filter : List (String × String) := []
  groupBy : Option String := none
  sortBy : Option (String × String) := none
  AbstractArrayToString : Bool := false
  chunkSize : Option Nat := none
deriving Repr, DecidableEq

/-- The outcome of one `works` call: the value returned or thrown, the
export-sink writes performed, and the URLs fetched, in order. -/
structure RunResult where
  result : Except String Works
  exports : List ExportEvent
  fetches : List String
deriving Repr

/-- The `works` method (src/src/index.ts lines 160-275): validate, build
the URL, resolve the cursor for the requested page, force page size 200 and
the start sentinel under `retriveAllPages`, re-resolve for `startPage` when
a bounded window is requested, fetch once, set `meta.page`, apply the
optional AbstractArrayToString transform, then dispatch to
`handleMultiplePages`, `handleAllPagesInChunks` (whose own return value is
discarded and whose follow-up falls through to the single-page epilogue) or
`handleAllPages`; otherwise export, set `meta.url` and return the page.
Any non-200 on the facade fetch throws `Error status: statusText`. -/
def worksM (baseUrl : String) (fuel : Nat) (p : SearchParameters)
    (get : String → Resp Works) : RunResult :=
  match validateParameters p.retriveAllPages p.startPage p.endPage p.searchField
      p.chunkSize p.toCsv p.toJson with
  | Except.error e => ⟨Except.error e, [], []⟩
  | Except.ok _ =>
    let url0 := buildUrl baseUrl "works" p.search p.searchField p.filter p.groupBy p.sortBy
    let g1 := getCursorByPage get url0 p.page p.perPage
    match g1.1 with
    | Except.error e => ⟨Except.error e, [], g1.2⟩
    | Except.ok c0 =>
      let pp := if p.retriveAllPages then some 200 else p.perPage
      let c1 := if p.retriveAllPages then "*" else c0
      let windowed := truthyNat p.startPage && truthyNat p.endPage
      let pg := if windowed then p.startPage else p.page
      let g2 := if windowed then getCursorByPage get url0 p.startPage pp
                else (Except.ok c1, [])
      match g2.1 with
      | Except.error e => ⟨Except.error e, [], g1.2 ++ g2.2⟩
      | Except.ok c2 =>
        let u := appendCursorToUrl url0 pp c2
        let r := get u
        let tr := g1.2 ++ g2.2 ++ [u]
        if r.status = 200 then
          let d0 : Works := { r.data with meta := { r.data.meta with page := pg.getD 1 } }
          let d1 := if p.AbstractArrayToString then
              { d0 with results := d0.results.map abstractTransform } else d0
          if windowed then
            let h := handleMultiplePages get (p.startPage.getD 1) (p.endPage.getD 1)
              url0 pp d1 p.toJson p.toCsv p.AbstractArrayToString
            ⟨h.1, h.2.1, tr ++ h.2.2⟩
          else if p.retriveAllPages then
            match p.chunkSize with
            | some cs =>
              let h := handleAllPagesInChunks get fuel url0 pp d1 p.toJson p.toCsv
                p.AbstractArrayToString cs
              let d2 := { d1 with meta := { d1.meta with url := some u } }
              ⟨Except.ok d2, h.2.1 ++ finalExports p.toJson p.toCsv d1.results, tr ++ h.2.2⟩
            | none =>
              let h := handleAllPages get fuel url0 pp d1 p.toJson p.toCsv
                p.AbstractArrayToString
              ⟨h.1, h.2.1, tr ++ h.2.2⟩
          else
            let d2 := { d1 with meta := { d1.meta with url := some u } }
            ⟨Except.ok d2, finalExports p.toJson p.toCsv d1.results, tr⟩
        else ⟨Except.error (errMsg r.status r.statusText), [], tr⟩

/-- The cursor that a chained synthetic collection of `ps.length` pages
reports for 0-indexed page `k`: a concrete cursor while the page exists,
absent past the end. -/
def chainCursor (ps : List Works) (k : Nat) : Option String :=
  if k < ps.length then some (cursorName k) else none

/-- An oracle `get` serves the synthetic collection `ps` at base URL `url`
and page size `pp`: fetching with the cursor of page `k` returns HTTP 200
with page `k` as the body. -/
def serves (get : String → Resp Works) (url : String) (pp : Option Nat)
    (ps : List Works) : Prop :=
  ∀ k (h : k < ps.length),
    get (appendCursorToUrl url pp (cursorName k)) = ⟨200, "OK", ps[k]⟩

/-- The pages of a synthetic collection are chained: each page's
`nextCursor` names the next page, and the last page carries none. -/
def chained (ps : List Works) : Prop :=
  ∀ k (h : k < ps.length), (ps[k]).meta.nextCursor = chainCursor ps (k + 1)

/-- The concatenation, in order, of the results of pages `k, k+1, ...` of a
synthetic collection. -/
def flatRes (ps : List Works) (k : Nat) : List Work :=
  ((ps.drop k).map Works.results).flatten

/-- The chunk decomposition of a result list: the full chunks of size `cs`
followed by the final partial chunk when one remains. -/
def chunksOf (cs : Nat) (l : List Work) : List (List Work) :=
  (fullChunks cs l).1 ++ (if (fullChunks cs l).2 = [] then [] else [(fullChunks cs l).2])

/-- The URLs a sequential cursor walk fetches: `n` fetches starting at the
cursor of 0-indexed page `k`, advancing one page per fetch. -/
def cursorTrace (url : String) (pp : Option Nat) (k : Nat) : Nat → List String
  | 0 => []
  | n + 1 => appendCursorToUrl url pp (cursorName k) :: cursorTrace url pp (k + 1) n

/-- A concrete oracle serving a finite list of pages by matching the fetch
URL against the cursor of each page in turn, 404 past the end; used by the
witness theorems. -/
def chainGetAux (url : String) (pp : Option Nat) (k : Nat) :
    List Works → String → Resp Works
  | [], _ => ⟨404, "Not Found", {}⟩
  | p :: rest, s =>
    if s = appendCursorToUrl url pp (cursorName k) then ⟨200, "OK", p⟩
    else chainGetAux url pp (k + 1) rest s

/-- The oracle of a concrete synthetic collection. -/
def chainGet (url : String) (pp : Option Nat) (ps : List Works) : String → Resp Works :=
  fun s => chainGetAux url pp 0 ps s

/-- A concrete two-result page used by witness theorems. -/
def wpage : Works :=
  { results := [{ id := "w1" }, { id := "w2" }], meta := { count := 2 } }

/-- A concrete five-page chained collection, one result per page, used by
the bounded-window witness. -/
def fivePages : List Works :=
  [{ results := [{ id := "p1" }], meta := { count := 5, nextCursor := some "cursor1" } },
   { results := [{ id := "p2" }], meta := { count := 5, nextCursor := some "cursor2" } },
   { results := [{ id := "p3" }], meta := { count := 5, nextCursor := some "cursor3" } },
   { results := [{ id := "p4" }], meta := { count := 5, nextCursor := some "cursor4" } },
   { results := [{ id := "p5" }], meta := { count := 5 } }]

/-- Claim C9: a `topic` call with an empty (falsy) id throws
`Topic id is required` synchronously, fetching nothing; the other
single-entity lookups perform no such check — with an empty id each of
`work`, `author`, `source`, `institution` still issues its one network
request (their fetch list is the one URL built from the empty id). -/
theorem topic_empty_id_rejected (base : String)
    (getW : String → Resp Work) (getA : String → Resp Author)
    (getS : String → Resp Source) (getI : String → Resp Institution)
    (getT : String → Resp Topic) :
    topicM base "" getT = (Except.error "Topic id is required", []) ∧
    (workM base "" none getW).2 = [base ++ "/works/"] ∧
    (authorM base "" none getA).2 = [base ++ "/authors/"] ∧
    (sourceM base "" none getS).2 = [base ++ "/sources/"] ∧
    (institutionM base "" none getI).2 = [base ++ "/institutions/"] := by
  refine ⟨rfl, ?_, ?_, ?_, ?_⟩ <;>
    simp [workM, authorM, sourceM, institutionM]

/-- Claim C1 counterexample: an `author` lookup whose response has HTTP
status 404 throws `Error 404: Not Found` instead of returning a
placeholder entity, refuting the claim that every single-entity lookup
returns a placeholder on 404. -/
theorem author_404_throws :
    (authorM "https://api.openalex.org" "A5023888863" none
        (fun _ => ⟨404, "Not Found", { id := "", display_name := "" }⟩)).1 =
      Except.error "Error 404: Not Found" := rfl

/-- Claim C1 (amended): only the `work` lookup coerces a 404 response into
a placeholder entity carrying the requested id and empty collections; the
`author`, `source`, `institution` and `topic` lookups throw an error
carrying the status on 404. -/
theorem single_entity_404_behaviour (base id text : String) (hid : id ≠ "")
    (w : Work) (a : Author) (s : Source) (i : Institution) (t : Topic) :
    (workM base id none (fun _ => ⟨404, text, w⟩)).1 = Except.ok (emptyWork id) ∧
    (authorM base id none (fun _ => ⟨404, text, a⟩)).1 = Except.error (errMsg 404 text) ∧
    (sourceM base id none (fun _ => ⟨404, text, s⟩)).1 = Except.error (errMsg 404 text) ∧
    (institutionM base id none (fun _ => ⟨404, text, i⟩)).1 = Except.error (errMsg 404 text) ∧
    (topicM base id (fun _ => ⟨404, text, t⟩)).1 = Except.error (errMsg 404 text) := by
  refine ⟨rfl, rfl, rfl, rfl, ?_⟩
  simp [topicM, hid]

/-- Witness for the amended C1 theorem at a concrete id and bodies. -/
theorem single_entity_404_behaviour_witness :
    ("W123" : String) ≠ "" ∧
    ((workM "h" "W123" none (fun _ => ⟨404, "NF", { id := "x" }⟩)).1 =
        Except.ok (emptyWork "W123") ∧
      (authorM "h" "W123" none (fun _ => ⟨404, "NF", {}⟩)).1 = Except.error (errMsg 404 "NF") ∧
      (sourceM "h" "W123" none (fun _ => ⟨404, "NF", {}⟩)).1 = Except.error (errMsg 404 "NF") ∧
      (institutionM "h" "W123" none (fun _ => ⟨404, "NF", {}⟩)).1 = Except.error (errMsg 404 "NF") ∧
      (topicM "h" "W123" (fun _ => ⟨404, "NF", {}⟩)).1 = Except.error (errMsg 404 "NF")) :=
  ⟨by decide, single_entity_404_behaviour "h" "W123" "NF" (by decide) _ _ _ _ _⟩

/-- Claim C2 counterexample: a `work` lookup whose response has HTTP status
500 — neither 2xx nor 404 — does not surface any error: it silently
returns the placeholder entity, refuting the claim that every fetch with
such a status throws. -/
theorem work_500_swallowed :
    (workM "https://api.openalex.org" "W2741809807" none
        (fun _ => ⟨500, "Internal Server Error", { id := "x" }⟩)).1 =
      Except.ok (emptyWork "W2741809807") := rfl

/-- Claim C2 (amended): for every fetch other than the single-entity
`work` lookup — the `works` page fetch and the `author`, `source`,
`institution`, `topic`, `autoCompleteWorks` and `ngram` lookups — a
response status that is neither 2xx nor 404 surfaces a thrown error
carrying the status code and status text; the `work` lookup instead logs
and returns the placeholder entity for any non-200 status. -/
theorem non2xx_non404_throws (base id search text : String) (code fuel : Nat)
    (hid : id ≠ "")
    (h2xx : ¬ (200 ≤ code ∧ code < 300)) (h404 : code ≠ 404)
    (w : Work) (a : Author) (s : Source) (i : Institution) (t : Topic) (pg : Works) :
    (worksM base fuel { perPage := some 25, page := some 1 }
        (fun _ => ⟨code, text, pg⟩)).result = Except.error (errMsg code text) ∧
    (authorM base id none (fun _ => ⟨code, text, a⟩)).1 = Except.error (errMsg code text) ∧
    (sourceM base id none (fun _ => ⟨code, text, s⟩)).1 = Except.error (errMsg code text) ∧
    (institutionM base id none (fun _ => ⟨code, text, i⟩)).1 = Except.error (errMsg code text) ∧
    (topicM base id (fun _ => ⟨code, text, t⟩)).1 = Except.error (errMsg code text) ∧
    (autoCompleteWorksM base search (fun _ => ⟨code, text, pg⟩)).1 =
      Except.error (errMsg code text) ∧
    (ngramM base id (fun _ => ⟨code, text, w⟩)).1 = Except.error (errMsg code text) ∧
    (workM base id none (fun _ => ⟨code, text, w⟩)).1 = Except.ok (emptyWork id) := by
  have hc : code ≠ 200 := by
    intro h
    exact h2xx (by omega)
  refine ⟨?_, ?_, ?_, ?_, ?_, ?_, ?_, ?_⟩
  · simp [worksM, validateParameters, truthyNat, getCursorByPage, hc]
  · simp [authorM, hc]
  · simp [sourceM, hc]
  · simp [institutionM, hc]
  · simp [topicM, hid, hc]
  · simp [autoCompleteWorksM, hc]
  · simp [ngramM, hc]
  · simp [workM, hc]

/-- Witness for the amended C2 theorem at status 500. -/
theorem non2xx_non404_throws_witness :
    (("W1" : String) ≠ "" ∧ ¬ (200 ≤ 500 ∧ 500 < 300) ∧ (500 : Nat) ≠ 404) ∧
    ((worksM "h" 0 { perPage := some 25, page := some 1 }
        (fun _ => ⟨500, "ISE", ({} : Works)⟩)).result = Except.error (errMsg 500 "ISE") ∧
      (authorM "h" "W1" none (fun _ => ⟨500, "ISE", {}⟩)).1 = Except.error (errMsg 500 "ISE") ∧
      (sourceM "h" "W1" none (fun _ => ⟨500, "ISE", {}⟩)).1 = Except.error (errMsg 500 "ISE") ∧
      (institutionM "h" "W1" none (fun _ => ⟨500, "ISE", {}⟩)).1 = Except.error (errMsg 500 "ISE") ∧
      (topicM "h" "W1" (fun _ => ⟨500, "ISE", {}⟩)).1 = Except.error (errMsg 500 "ISE") ∧
      (autoCompleteWorksM "h" "q" (fun _ => ⟨500, "ISE", ({} : Works)⟩)).1 =
        Except.error (errMsg 500 "ISE") ∧
      (ngramM "h" "W1" (fun _ => ⟨500, "ISE", { id := "x" }⟩)).1 =
        Except.error (errMsg 500 "ISE") ∧
      (workM "h" "W1" none (fun _ => ⟨500, "ISE", { id := "x" }⟩)).1 =
        Except.ok (emptyWork "W1")) :=
  ⟨⟨by decide, by decide, by decide⟩,
    non2xx_non404_throws "h" "W1" "q" "ISE" 500 0 (by decide) (by decide) (by decide)
      { id := "x" } {} {} {} {} {}⟩

/-- Claim C8: the URL builder is a pure, deterministic function of its
inputs — rebuilding with identical inputs yields byte-identical URL
strings (its type consumes no network oracle, so it can make no network
access, and its parameter ordering is fixed by `buildUrl` itself). -/
theorem buildUrl_deterministic (a b : UrlInputs) (h : a = b) :
    buildUrlOf a = buildUrlOf b := by
  rw [h]

/-- Witness for the C8 theorem at a concrete input bundle. -/
theorem buildUrl_deterministic_witness :
    (⟨"https://api.openalex.org", "works", some "education", some "title",
        [("has_fulltext", "true")], some "publication_year",
        some ("display_name", "desc")⟩ : UrlInputs) =
      (⟨"https://api.openalex.org", "works", some "education", some "title",
        [("has_fulltext", "true")], some "publication_year",
        some ("display_name", "desc")⟩ : UrlInputs) ∧
    buildUrlOf
        ⟨"https://api.openalex.org", "works", some "education", some "title",
          [("has_fulltext", "true")], some "publication_year",
          some ("display_name", "desc")⟩ =
      buildUrlOf
        ⟨"https://api.openalex.org", "works", some "education", some "title",
          [("has_fulltext", "true")], some "publication_year",
          some ("display_name", "desc")⟩ :=
  ⟨rfl, buildUrl_deterministic _ _ rfl⟩

/-- Claim C3: a `works` request combining a bounded window
(truthy `startPage` and `endPage`) with `retriveAllPages`, or giving a
truthy `startPage` without an `endPage`, is rejected with a synchronously
raised validation error: the run returns a thrown error having performed
no fetch and no export, for every oracle. -/
theorem works_validation_rejects (base : String) (fuel : Nat)
    (p : SearchParameters) (get : String → Resp Works)
    (h : (p.retriveAllPages = true ∧ truthyNat p.startPage = true ∧
            truthyNat p.endPage = true) ∨
         (truthyNat p.startPage = true ∧ truthyNat p.endPage = false)) :
    ∃ e, worksM base fuel p get = ⟨Except.error e, [], []⟩ := by
  rcases h with ⟨hr, hs, he⟩ | ⟨hs, he⟩
  · exact ⟨"startPage/endPage cannot be used with retriveAllPages",
      by simp [worksM, validateParameters, hr, hs, he]⟩
  · cases hr : p.retriveAllPages
    · exact ⟨"startPage requires endPage",
        by simp [worksM, validateParameters, hr, hs, he]⟩
    · exact ⟨"startPage/endPage cannot be used with retriveAllPages",
        by simp [worksM, validateParameters, hr, hs, he]⟩

/-- Witness for the C3 theorem: both a window-plus-drain request and a
startPage-without-endPage request are rejected without any fetch. -/
theorem works_validation_rejects_witness :
    ((true = true ∧ truthyNat (some 2) = true ∧ truthyNat (some 4) = true) ∨
      (truthyNat (some 2) = true ∧ truthyNat (none : Option Nat) = false)) ∧
    (∃ e, worksM "h" 0
        { retriveAllPages := true, startPage := some 2, endPage := some 4 }
        (fun _ => ⟨200, "OK", ({} : Works)⟩) = ⟨Except.error e, [], []⟩) :=
  ⟨Or.inl ⟨rfl, by decide, by decide⟩,
    works_validation_rejects "h" 0 _ _ (Or.inl ⟨rfl, by decide, by decide⟩)⟩

/-- A cursor walk of `n` steps performs exactly `n` fetches. -/
theorem cursorTrace_length (url : String) (pp : Option Nat) :
    ∀ (n k : Nat), (cursorTrace url pp k n).length = n := by
  intro n
  induction n with
  | zero => intro k; rfl
  | succ m ih => intro k; simp [cursorTrace, ih]

/-- Over a served, chained collection, the cursor-resolution loop starting
at page `k` advances exactly `n` pages, returning the cursor of page
`k + n` and fetching the `n` intermediate pages in order. -/
theorem cursorLoop_chain (get : String → Resp Works) (url : String)
    (pp : Option Nat) (ps : List Works)
    (hs : serves get url pp ps) (hc : chained ps) :
    ∀ (n k : Nat), k + n < ps.length →
      cursorLoop get url pp n (cursorName k) =
        (Except.ok (cursorName (k + n)), cursorTrace url pp k n) := by
  intro n
  induction n with
  | zero => intro k hk; simp [cursorLoop, cursorTrace]
  | succ m ih =>
    intro k hk
    have hklt : k < ps.length := by omega
    have hnext : chainCursor ps (k + 1) = some (cursorName (k + 1)) := by
      simp [chainCursor]
      omega
    have hrec := ih (k + 1) (by omega)
    have harith : k + 1 + m = k + (m + 1) := by omega
    simp [cursorLoop, hs k hklt, hc k hklt, hnext, cursorTrace, hrec, harith]

/-- Claim C4: over a served, chained collection, `getCursorByPage` returns
the start sentinel with zero fetches for a missing target page or any
target page at most 1, and for a target page `N` of at least 2 performs
exactly `N - 1` sequential fetches — the cursor walk of pages 1 through
`N - 1` — returning the cursor that yields page `N`. -/
theorem getCursorByPage_contract (get : String → Resp Works) (url : String)
    (pp : Option Nat) (ps : List Works) (N : Nat)
    (hs : serves get url pp ps) (hc : chained ps)
    (hN : 2 ≤ N) (hlen : N ≤ ps.length) :
    getCursorByPage get url none pp = (Except.ok "*", []) ∧
    (∀ t, t ≤ 1 → getCursorByPage get url (some t) pp = (Except.ok "*", [])) ∧
    getCursorByPage get url (some N) pp =
      (Except.ok (cursorName (N - 1)), cursorTrace url pp 0 (N - 1)) ∧
    (cursorTrace url pp 0 (N - 1)).length = N - 1 := by
  refine ⟨rfl, ?_, ?_, cursorTrace_length url pp (N - 1) 0⟩
  · intro t ht
    simp [getCursorByPage, ht]
  · have h1 : ¬ N ≤ 1 := by omega
    have hloop := cursorLoop_chain get url pp ps hs hc (N - 1) 0 (by omega)
    simp [getCursorByPage, h1]
    simpa [cursorName] using hloop

/-- Witness for the C4 theorem over a concrete two-page collection. -/
theorem getCursorByPage_contract_witness :
    (serves (chainGet "u" none
        [{ results := [{ id := "a1" }], meta := { nextCursor := some "cursor1" } },
         { results := [{ id := "b1" }], meta := {} }]) "u" none
        [{ results := [{ id := "a1" }], meta := { nextCursor := some "cursor1" } },
         { results := [{ id := "b1" }], meta := {} }] ∧
      chained
        [{ results := [{ id := "a1" }], meta := { nextCursor := some "cursor1" } },
         { results := [{ id := "b1" }], meta := {} }] ∧
      2 ≤ 2 ∧
      2 ≤ ([{ results := [{ id := "a1" }], meta := { nextCursor := some "cursor1" } },
            { results := [{ id := "b1" }], meta := {} }] : List Works).length) ∧
    (getCursorByPage (chainGet "u" none
        [{ results := [{ id := "a1" }], meta := { nextCursor := some "cursor1" } },
         { results := [{ id := "b1" }], meta := {} }]) "u" none none =
        (Except.ok "*", []) ∧
      (∀ t, t ≤ 1 → getCursorByPage (chainGet "u" none
          [{ results := [{ id := "a1" }], meta := { nextCursor := some "cursor1" } },
           { results := [{ id := "b1" }], meta := {} }]) "u" (some t) none =
          (Except.ok "*", [])) ∧
      getCursorByPage (chainGet "u" none
          [{ results := [{ id := "a1" }], meta := { nextCursor := some "cursor1" } },
           { results := [{ id := "b1" }], meta := {} }]) "u" (some 2) none =
        (Except.ok (cursorName 1), cursorTrace "u" none 0 1) ∧
      (cursorTrace "u" none 0 1).length = 1) :=
  ⟨⟨by
      intro k h
      have h2 : k < 2 := by simpa using h
      interval_cases k <;> rfl,
    by
      intro k h
      have h2 : k < 2 := by simpa using h
      interval_cases k <;> rfl,
      by decide, by decide⟩,
    getCursorByPage_contract
      (chainGet "u" none
        [{ results := [{ id := "a1" }], meta := { nextCursor := some "cursor1" } },
         { results := [{ id := "b1" }], meta := {} }]) "u" none
      [{ results := [{ id := "a1" }], meta := { nextCursor := some "cursor1" } },
       { results := [{ id := "b1" }], meta := {} }] 2
      (by
        intro k h
        have h2 : k < 2 := by simpa using h
        interval_cases k <;> rfl)
      (by
        intro k h
        have h2 : k < 2 := by simpa using h
        interval_cases k <;> rfl)
      (by decide) (by decide)⟩

/-- Over a served, chained collection, the bounded fetch-advance loop
starting at the cursor of page `k` with a budget of `n` further pages
returns the accumulator followed by the results of pages
`k, ..., min (k+n, length) - 1` concatenated in order, stopping early
without error when the collection is exhausted. -/
theorem windowLoop_chain_fst (get : String → Resp Works) (url : String)
    (pp : Option Nat) (ps : List Works)
    (hs : serves get url pp ps) (hc : chained ps) :
    ∀ (n k : Nat) (acc : List Work),
      (windowLoop get url pp id n (chainCursor ps k) acc).1 =
        Except.ok (acc ++ (((ps.drop k).take n).map Works.results).flatten) := by
  intro n
  induction n with
  | zero =>
    intro k acc
    rcases h : chainCursor ps k with _ | c <;> simp [windowLoop]
  | succ m ih =>
    intro k acc
    by_cases hk : k < ps.length
    · have hcc : chainCursor ps k = some (cursorName k) := by simp [chainCursor, hk]
      have hdrop : ps.drop k = ps[k] :: ps.drop (k + 1) := List.drop_eq_getElem_cons hk
      have hrec := ih (k + 1) (acc ++ (ps[k]).results)
      rw [hcc]
      simp only [windowLoop, hs k hk, hc k hk, id_eq]
      rw [if_pos trivial, hdrop, List.take_succ_cons, List.map_cons, List.flatten_cons,
        ← List.append_assoc]
      exact hrec
    · have hcc : chainCursor ps k = none := by
        simp [chainCursor]
        omega
      have hdrop : ps.drop k = [] := List.drop_eq_nil_of_le (by omega)
      simp [hcc, windowLoop, hdrop]

/-- Claim C6: a drain-to-completion `works` request (`retriveAllPages`)
starts its traversal at the sentinel cursor `*` with page size forced to
200, whatever `perPage` and `page` the caller passed: after the discarded
cursor resolution at the caller's parameters (which must merely not fail),
the next fetched URL carries `per-page=200` and `cursor=*`, fetch-advance
repeats until a page's `nextCursor` is absent, and the concatenation of
all pages' results is returned. -/
theorem works_drain_to_completion (base : String) (pv pgv : Option Nat) (fuel : Nat)
    (c0 : String) (p0 : Works) (rest : List Works) (get : String → Resp Works)
    (hs : serves get (buildUrl base "works" none none [] none none) (some 200) (p0 :: rest))
    (hc : chained (p0 :: rest))
    (hok : (getCursorByPage get (buildUrl base "works" none none [] none none) pgv pv).1 =
      Except.ok c0)
    (hfuel : rest.length ≤ fuel) :
    (worksM base fuel { perPage := pv, page := pgv, retriveAllPages := true } get).result =
      Except.ok { results := flatRes (p0 :: rest) 0,
                  meta := { p0.meta with page := pgv.getD 1 } } ∧
    ((worksM base fuel { perPage := pv, page := pgv, retriveAllPages := true } get).fetches.drop
        (getCursorByPage get (buildUrl base "works" none none [] none none) pgv pv).2.length).head? =
      some (appendCursorToUrl (buildUrl base "works" none none [] none none) (some 200) "*") := by
  have h0 : get (appendCursorToUrl (buildUrl base "works" none none [] none none)
      (some 200) "*") = ⟨200, "OK", p0⟩ := by
    have := hs 0 (by simp)
    simpa [cursorName] using this
  have hnext : p0.meta.nextCursor = chainCursor (p0 :: rest) 1 := by
    have := hc 0 (by simp)
    simpa using this
  have hw := windowLoop_chain_fst get (buildUrl base "works" none none [] none none)
    (some 200) (p0 :: rest) hs hc fuel 1 p0.results
  have htake : ((p0 :: rest).drop 1).take fuel = rest := by
    simp [List.take_of_length_le hfuel]
  rw [htake] at hw
  constructor <;>
    simp [worksM, validateParameters, truthyNat, hok, h0, hnext,
      handleAllPages, hw, flatRes, List.drop_left]

/-- Witness for the C6 theorem over a concrete one-page collection, with a
caller page of 3 and a caller perPage of 7 — both overridden by the drain:
the discarded resolution walk soft-lands on the sentinel (its fetches miss
the collection, reading empty 404 pages), and the traversal then runs at
`per-page=200`, `cursor=*`. -/
theorem works_drain_to_completion_witness :
    (serves (chainGet (buildUrl "h" "works" none none [] none none) (some 200) [wpage])
        (buildUrl "h" "works" none none [] none none) (some 200) [wpage] ∧
      chained [wpage] ∧
      (getCursorByPage
          (chainGet (buildUrl "h" "works" none none [] none none) (some 200) [wpage])
          (buildUrl "h" "works" none none [] none none) (some 3) (some 7)).1 =
        Except.ok "*" ∧
      ([] : List Works).length ≤ 0) ∧
    ((worksM "h" 0 { perPage := some 7, page := some 3, retriveAllPages := true }
        (chainGet (buildUrl "h" "works" none none [] none none) (some 200) [wpage])).result =
      Except.ok { results := flatRes [wpage] 0,
                  meta := { wpage.meta with page := (some 3).getD 1 } } ∧
      ((worksM "h" 0 { perPage := some 7, page := some 3, retriveAllPages := true }
        (chainGet (buildUrl "h" "works" none none [] none none) (some 200) [wpage])).fetches.drop
          (getCursorByPage
            (chainGet (buildUrl "h" "works" none none [] none none) (some 200) [wpage])
            (buildUrl "h" "works" none none [] none none) (some 3) (some 7)).2.length).head? =
      some (appendCursorToUrl (buildUrl "h" "works" none none [] none none) (some 200) "*")) :=
  ⟨⟨by
      intro k h
      have h2 : k < 1 := by simpa using h
      interval_cases k <;> rfl,
    by
      intro k h
      have h2 : k < 1 := by simpa using h
      interval_cases k <;> rfl,
    rfl, by decide⟩,
    works_drain_to_completion "h" (some 7) (some 3) 0 "*" wpage []
      (chainGet (buildUrl "h" "works" none none [] none none) (some 200) [wpage])
      (by
        intro k h
        have h2 : k < 1 := by simpa using h
        interval_cases k <;> rfl)
      (by
        intro k h
        have h2 : k < 1 := by simpa using h
        interval_cases k <;> rfl)
      rfl (by decide)⟩

/-- Claim C5: a bounded-window `works` request with `startPage = s` and
`endPage = e` returns the concatenation, in fetch order, of the results of
pages `s` through `e` inclusive — clipped without error when the
collection is exhausted first — with `meta.page` set to `s` and
`meta.count`/`perPage` (the whole remaining meta) taken from the first
page fetched. -/
theorem works_bounded_window (base : String) (pv : Option Nat) (fuel : Nat)
    (ps : List Works) (s e : Nat) (get : String → Resp Works)
    (hs : serves get (buildUrl base "works" none none [] none none) pv ps)
    (hc : chained ps)
    (h1 : 1 ≤ s) (hse : s ≤ e) (hslen : s ≤ ps.length) :
    (worksM base fuel
        { perPage := pv, page := some 1, startPage := some s, endPage := some e }
        get).result =
      Except.ok
        { results := (((ps.drop (s - 1)).take (e - s + 1)).map Works.results).flatten,
          meta := { (ps.get ⟨s - 1, by omega⟩).meta with page := s } } := by
  have hslt : s - 1 < ps.length := by omega
  have hs0 : (s != 0) = true := by simp; omega
  have he0 : (e != 0) = true := by simp; omega
  have hg2 : getCursorByPage get (buildUrl base "works" none none [] none none)
      (some s) pv =
      (Except.ok (cursorName (s - 1)),
        cursorTrace (buildUrl base "works" none none [] none none) pv 0 (s - 1)) := by
    rcases Nat.lt_or_ge s 2 with h | h
    · have hs1 : s = 1 := by omega
      subst hs1
      simp [getCursorByPage, cursorName, cursorTrace]
    · have h1' : ¬ s ≤ 1 := by omega
      have hcl := cursorLoop_chain get (buildUrl base "works" none none [] none none)
        pv ps hs hc (s - 1) 0 (by omega)
      simp only [getCursorByPage, h1', if_neg, ite_false]
      simpa [cursorName] using hcl
  have hmain : get (appendCursorToUrl (buildUrl base "works" none none [] none none)
      pv (cursorName (s - 1))) = ⟨200, "OK", ps[s - 1]⟩ := hs (s - 1) hslt
  have hnext : (ps[s - 1]).meta.nextCursor = chainCursor ps s := by
    have hcs := hc (s - 1) hslt
    have harith : s - 1 + 1 = s := by omega
    rwa [harith] at hcs
  have hw := windowLoop_chain_fst get (buildUrl base "works" none none [] none none)
    pv ps hs hc (e - s) s (ps[s - 1]).results
  have hdrop : ps.drop (s - 1) = ps[s - 1] :: ps.drop s := by
    have := List.drop_eq_getElem_cons hslt
    have harith : s - 1 + 1 = s := by omega
    rwa [harith] at this
  have hg1 : getCursorByPage get (buildUrl base "works" none none [] none none)
      (some 1) pv = (Except.ok "*", []) := by
    simp [getCursorByPage]
  simp [worksM, validateParameters, truthyNat, hs0, he0, hg1, hg2,
    hmain, hnext, handleMultiplePages, hw, hdrop, List.take_succ_cons,
    List.get_eq_getElem]

/-- Witness for the C5 theorem: the synthetic five-page collection with
window 2..4 yields exactly pages 2-4 concatenated. -/
theorem works_bounded_window_witness :
    (serves (chainGet (buildUrl "h" "works" none none [] none none) (some 1) fivePages)
        (buildUrl "h" "works" none none [] none none) (some 1) fivePages ∧
      chained fivePages ∧ 1 ≤ 2 ∧ 2 ≤ 4 ∧ 2 ≤ fivePages.length) ∧
    (worksM "h" 0
        { perPage := some 1, page := some 1, startPage := some 2, endPage := some 4 }
        (chainGet (buildUrl "h" "works" none none [] none none) (some 1) fivePages)).result =
      Except.ok
        { results := (((fivePages.drop 1).take 3).map Works.results).flatten,
          meta := { (fivePages.get ⟨1, by decide⟩).meta with page := 2 } } :=
  ⟨⟨by
      intro k h
      have h2 : k < 5 := by simpa [fivePages] using h
      interval_cases k <;> rfl,
    by
      intro k h
      have h2 : k < 5 := by simpa [fivePages] using h
      interval_cases k <;> rfl,
    by decide, by decide, by decide⟩,
    works_bounded_window "h" (some 1) 0 fivePages 2 4
      (chainGet (buildUrl "h" "works" none none [] none none) (some 1) fivePages)
      (by
        intro k h
        have h2 : k < 5 := by simpa [fivePages] using h
        interval_cases k <;> rfl)
      (by
        intro k h
        have h2 : k < 5 := by simpa [fivePages] using h
        interval_cases k <;> rfl)
      (by decide) (by decide) (by decide)⟩

/-- The chunk splitter returns nothing on the empty list, whatever fuel. -/
theorem fullChunksAux_nil (cs : Nat) :
    ∀ f, fullChunksAux cs f ([] : List Work) = ([], []) := by
  intro f
  cases f with
  | zero => rfl
  | succ f =>
    simp only [fullChunksAux]
    rw [if_neg]
    rintro ⟨h1, h2⟩
    simp at h2
    omega

/-- The chunk splitter ignores its fuel as long as the fuel covers the
list length. -/
theorem fullChunksAux_congr (cs : Nat) :
    ∀ (f₁ : Nat), ∀ (f₂ : Nat) (l : List Work), l.length ≤ f₁ → l.length ≤ f₂ →
      fullChunksAux cs f₁ l = fullChunksAux cs f₂ l := by
  intro f₁
  induction f₁ with
  | zero =>
    intro f₂ l h1 h2
    have hl : l = [] := List.eq_nil_of_length_eq_zero (by omega)
    subst hl
    rw [fullChunksAux_nil, fullChunksAux_nil]
  | succ f ih =>
    intro f₂ l h1 h2
    rcases l with _ | ⟨a, as⟩
    · rw [fullChunksAux_nil, fullChunksAux_nil]
    · rcases f₂ with _ | f₂
      · simp at h2
      · by_cases hg : 0 < cs ∧ cs ≤ (a :: as).length
        · have hdl : ((a :: as).drop cs).length ≤ f := by
            simp only [List.length_drop]
            omega
          have hdl2 : ((a :: as).drop cs).length ≤ f₂ := by
            simp only [List.length_drop]
            omega
          simp only [fullChunksAux, if_pos hg, ih f₂ _ hdl hdl2]
        · simp only [fullChunksAux, if_neg hg]

/-- When no full chunk fits, the chunk splitter keeps everything as the
remainder. -/
theorem fullChunks_of_not (cs : Nat) (l : List Work)
    (h : ¬ (0 < cs ∧ cs ≤ l.length)) : fullChunks cs l = ([], l) := by
  unfold fullChunks
  cases hl : l.length with
  | zero =>
    have hnil : l = [] := List.eq_nil_of_length_eq_zero hl
    subst hnil
    rfl
  | succ n =>
    simp only [fullChunksAux]
    rw [if_neg h]

/-- When a full chunk fits, the chunk splitter peels it off the front. -/
theorem fullChunks_step (cs : Nat) (l : List Work) (hcs : 0 < cs)
    (hle : cs ≤ l.length) :
    fullChunks cs l =
      ((l.take cs) :: (fullChunks cs (l.drop cs)).1, (fullChunks cs (l.drop cs)).2) := by
  unfold fullChunks
  cases hl : l.length with
  | zero => omega
  | succ n =>
    have hg : 0 < cs ∧ cs ≤ l.length := ⟨hcs, hle⟩
    have hdl : (l.drop cs).length ≤ n := by simp; omega
    simp only [fullChunksAux, if_pos hg]
    rw [fullChunksAux_congr cs n (l.drop cs).length _ hdl (le_refl _)]

/-- The remainder kept by the chunk splitter is shorter than one chunk. -/
theorem fullChunks_rem_lt (cs : Nat) (hcs : 0 < cs) :
    ∀ (f : Nat) (l : List Work), l.length ≤ f → (fullChunks cs l).2.length < cs := by
  intro f
  induction f with
  | zero =>
    intro l hl
    have hnil : l = [] := List.eq_nil_of_length_eq_zero (by omega)
    subst hnil
    have h : ¬ (0 < cs ∧ cs ≤ ([] : List Work).length) := by
      rintro ⟨h1, h2⟩
      simp at h2
      omega
    rw [fullChunks_of_not cs [] h]
    simpa using hcs
  | succ f ih =>
    intro l hl
    by_cases hle : cs ≤ l.length
    · rw [fullChunks_step cs l hcs hle]
      exact ih (l.drop cs) (by simp only [List.length_drop]; omega)
    · rw [fullChunks_of_not cs l (by omega)]
      show l.length < cs
      omega

/-- The full chunks and the remainder together are the original list. -/
theorem fullChunksAux_flatten (cs : Nat) :
    ∀ (f : Nat) (l : List Work),
      (fullChunksAux cs f l).1.flatten ++ (fullChunksAux cs f l).2 = l := by
  intro f
  induction f with
  | zero => intro l; simp [fullChunksAux]
  | succ f ih =>
    intro l
    by_cases hg : 0 < cs ∧ cs ≤ l.length
    · simp only [fullChunksAux, if_pos hg, List.flatten_cons, List.append_assoc, ih]
      exact List.take_append_drop cs l
    · simp [fullChunksAux, hg]

/-- Every full chunk has exactly the chunk size. -/
theorem fullChunksAux_sizes (cs : Nat) :
    ∀ (f : Nat) (l c : List Work), c ∈ (fullChunksAux cs f l).1 → c.length = cs := by
  intro f
  induction f with
  | zero => intro l c hc; simp [fullChunksAux] at hc
  | succ f ih =>
    intro l c hc
    by_cases hg : 0 < cs ∧ cs ≤ l.length
    · simp only [fullChunksAux, if_pos hg, List.mem_cons] at hc
      rcases hc with rfl | hc
      · simp [List.length_take]
        omega
      · exact ih _ _ hc
    · simp [fullChunksAux, hg] at hc

/-- The chunk decomposition reassembles to the original list. -/
theorem chunksOf_flatten (cs : Nat) (l : List Work) :
    (chunksOf cs l).flatten = l := by
  have h : (fullChunks cs l).1.flatten ++ (fullChunks cs l).2 = l :=
    fullChunksAux_flatten cs l.length l
  by_cases hr : (fullChunks cs l).2 = []
  · rw [chunksOf, if_pos hr]
    rw [hr] at h
    simpa using h
  · rw [chunksOf, if_neg hr]
    simpa [List.flatten_append] using h

/-- Every chunk of the decomposition except possibly the last has exactly
the chunk size. -/
theorem chunksOf_dropLast_sizes (cs : Nat) (l : List Work) :
    ∀ c ∈ (chunksOf cs l).dropLast, c.length = cs := by
  intro c hc
  by_cases hr : (fullChunks cs l).2 = []
  · rw [chunksOf, if_pos hr] at hc
    simp at hc
    exact fullChunksAux_sizes cs _ _ _ (List.dropLast_subset _ hc)
  · rw [chunksOf, if_neg hr, List.dropLast_concat] at hc
    exact fullChunksAux_sizes cs _ _ _ hc

/-- Chunking a concatenation peels off the full chunks of the front and
carries the front's remainder into the rest. -/
theorem fullChunks_append (cs : Nat) (hcs : 0 < cs) (rest : List Work) :
    ∀ (f : Nat) (l : List Work), l.length ≤ f →
      fullChunks cs (l ++ rest) =
        ((fullChunks cs l).1 ++ (fullChunks cs ((fullChunks cs l).2 ++ rest)).1,
         (fullChunks cs ((fullChunks cs l).2 ++ rest)).2) := by
  intro f
  induction f with
  | zero =>
    intro l hl
    have : l = [] := List.eq_nil_of_length_eq_zero (by omega)
    subst this
    simp [fullChunks_of_not cs [] (by simp; omega)]
  | succ f ih =>
    intro l hl
    by_cases hle : cs ≤ l.length
    · have hle2 : cs ≤ (l ++ rest).length := by simp; omega
      rw [fullChunks_step cs (l ++ rest) hcs hle2,
        List.take_append_of_le_length hle, List.drop_append_of_le_length hle,
        ih (l.drop cs) (by simp only [List.length_drop]; omega),
        fullChunks_step cs l hcs hle]
      simp
    · rw [fullChunks_of_not cs l (by omega)]
      simp

/-- The chunk decomposition of a concatenation: full chunks of the front,
then the decomposition of the carried remainder and the rest. -/
theorem chunksOf_append (cs : Nat) (hcs : 0 < cs) (l rest : List Work) :
    chunksOf cs (l ++ rest) =
      (fullChunks cs l).1 ++ chunksOf cs ((fullChunks cs l).2 ++ rest) := by
  rw [chunksOf, chunksOf, fullChunks_append cs hcs rest l.length l (le_refl _)]
  simp [List.append_assoc]

/-- Flush events of concatenated chunk lists split with shifted indices. -/
theorem flushEvents_append (jn cn : Option String) :
    ∀ (xs ys : List (List Work)) (idx : Nat),
      flushEvents jn cn idx (xs ++ ys) =
        flushEvents jn cn idx xs ++ flushEvents jn cn (idx + xs.length) ys := by
  intro xs
  induction xs with
  | nil => intro ys idx; simp [flushEvents]
  | cons c cs ih =>
    intro ys idx
    have h : idx + 1 + cs.length = idx + (cs.length + 1) := by omega
    simp [flushEvents, ih, h, List.append_assoc]

/-- At an absent cursor the chunk drain stops, flushing the final partial
chunk exactly when it is nonempty. -/
theorem chunkLoop_none (get : String → Resp Works) (url : String) (pp : Option Nat)
    (cs : Nat) (jn cn : Option String) (hcs : 0 < cs) :
    ∀ (n : Nat) (acc : List Work) (idx : Nat), acc.length < cs →
      (chunkLoop get url pp id cs jn cn n none acc idx).1 = Except.ok () ∧
      (chunkLoop get url pp id cs jn cn n none acc idx).2.1 =
        flushEvents jn cn idx (chunksOf cs acc) := by
  intro n acc idx hacc
  have hsmall : fullChunks cs acc = ([], acc) :=
    fullChunks_of_not cs acc (by omega)
  have hloop : chunkLoop get url pp id cs jn cn n none acc idx =
      (Except.ok (), if acc = [] then [] else flushOne jn cn idx acc, []) := by
    cases n <;> rfl
  rw [hloop]
  refine ⟨rfl, ?_⟩
  by_cases ha : acc = []
  · subst ha
    simp [chunksOf, hsmall, flushEvents]
  · simp [chunksOf, hsmall, ha, flushEvents, flushOne]

/-- Over a served, chained collection with enough fuel, the chunk drain
from page `k` succeeds and its flushes are exactly the chunk decomposition
of the carried accumulator followed by all remaining results, numbered
from `idx`. -/
theorem chunkLoop_chain (get : String → Resp Works) (url : String) (pp : Option Nat)
    (ps : List Works) (cs : Nat) (jn cn : Option String)
    (hs : serves get url pp ps) (hc : chained ps) (hcs : 0 < cs) :
    ∀ (n k : Nat) (acc : List Work) (idx : Nat),
      ps.length - k ≤ n → acc.length < cs →
      (chunkLoop get url pp id cs jn cn n (chainCursor ps k) acc idx).1 = Except.ok () ∧
      (chunkLoop get url pp id cs jn cn n (chainCursor ps k) acc idx).2.1 =
        flushEvents jn cn idx (chunksOf cs (acc ++ flatRes ps k)) := by
  intro n
  induction n with
  | zero =>
    intro k acc idx hn hacc
    have hk : ¬ k < ps.length := by omega
    have hcc : chainCursor ps k = none := by simp [chainCursor, hk]
    have hfr : flatRes ps k = [] := by
      simp [flatRes, List.drop_eq_nil_of_le (by omega : ps.length ≤ k)]
    rw [hcc, hfr, List.append_nil]
    exact chunkLoop_none get url pp cs jn cn hcs 0 acc idx hacc
  | succ m ih =>
    intro k acc idx hn hacc
    by_cases hk : k < ps.length
    · have hcc : chainCursor ps k = some (cursorName k) := by simp [chainCursor, hk]
      have hrem : (fullChunks cs (acc ++ (ps[k]).results)).2.length < cs :=
        fullChunks_rem_lt cs hcs (acc ++ (ps[k]).results).length _ (le_refl _)
      have hrec := ih (k + 1) (fullChunks cs (acc ++ (ps[k]).results)).2
        (idx + (fullChunks cs (acc ++ (ps[k]).results)).1.length) (by omega) hrem
      have hfr : flatRes ps k = (ps[k]).results ++ flatRes ps (k + 1) := by
        unfold flatRes
        rw [List.drop_eq_getElem_cons hk, List.map_cons, List.flatten_cons]
      rw [hcc]
      simp only [chunkLoop, hs k hk, hc k hk, id_eq]
      rw [if_pos trivial]
      constructor
      · exact hrec.1
      · show flushEvents jn cn idx (fullChunks cs (acc ++ (ps[k]).results)).1 ++
          (chunkLoop get url pp id cs jn cn m (chainCursor ps (k + 1))
            (fullChunks cs (acc ++ (ps[k]).results)).2
            (idx + (fullChunks cs (acc ++ (ps[k]).results)).1.length)).2.1 = _
        rw [hrec.2, hfr, ← List.append_assoc,
          chunksOf_append cs hcs (acc ++ (ps[k]).results) (flatRes ps (k + 1)),
          flushEvents_append]
    · have hcc : chainCursor ps k = none := by simp [chainCursor, hk]
      have hfr : flatRes ps k = [] := by
        simp [flatRes, List.drop_eq_nil_of_le (by omega : ps.length ≤ k)]
      rw [hcc, hfr, List.append_nil]
      exact chunkLoop_none get url pp cs jn cn hcs (m + 1) acc idx hacc

/-- The chunked drain handler flushes exactly the chunk decomposition of
the full drained result sequence, chunk indices counted from 1. -/
theorem handleAllPagesInChunks_chain (get : String → Resp Works) (url : String)
    (pp : Option Nat) (ps : List Works) (cs : Nat) (jn cn : Option String)
    (fuel : Nat) (first : Works)
    (hs : serves get url pp ps) (hc : chained ps) (hcs : 0 < cs)
    (hnext : first.meta.nextCursor = chainCursor ps 1)
    (hfuel : ps.length - 1 ≤ fuel) :
    (handleAllPagesInChunks get fuel url pp first jn cn false cs).1 = Except.ok () ∧
    (handleAllPagesInChunks get fuel url pp first jn cn false cs).2.1 =
      flushEvents jn cn 1 (chunksOf cs (first.results ++ flatRes ps 1)) := by
  have hrem : (fullChunks cs first.results).2.length < cs :=
    fullChunks_rem_lt cs hcs first.results.length _ (le_refl _)
  have hrec := chunkLoop_chain get url pp ps cs jn cn hs hc hcs fuel 1
    (fullChunks cs first.results).2 (1 + (fullChunks cs first.results).1.length)
    (by omega) hrem
  constructor
  · simpa [handleAllPagesInChunks, hnext] using hrec.1
  · show flushEvents jn cn 1 (fullChunks cs first.results).1 ++
      (chunkLoop get url pp (if false then (fun l => l.map abstractTransform) else id)
        cs jn cn fuel first.meta.nextCursor (fullChunks cs first.results).2
        (1 + (fullChunks cs first.results).1.length)).2.1 = _
    rw [if_neg (by simp), hnext, hrec.2,
      chunksOf_append cs hcs first.results (flatRes ps 1), flushEvents_append]

/-- Claim C7 counterexample: a concrete chunked drain — pages of 5 and 2
results, chunk size 3 — returns `Except.ok` carrying the first fetched
page's five results to the caller, and its export trace ends with an
un-indexed facade write of those same five results after the three indexed
chunk flushes.  The first page's results are part of the collected drain
(the chunk handler's accumulator is seeded with them), so in-memory
collected results are returned to the caller, refuting the claim as
stated. -/
theorem works_chunked_returns_first_page :
    (worksM "h" 1
        { retriveAllPages := true, chunkSize := some 3, toCsv := some "out" }
        (chainGet (buildUrl "h" "works" none none [] none none) (some 200)
          [{ results := [{ id := "c1" }, { id := "c2" }, { id := "c3" }, { id := "c4" },
              { id := "c5" }], meta := { count := 7, nextCursor := some "cursor1" } },
           { results := [{ id := "c6" }, { id := "c7" }],
             meta := { count := 7 } }])).result =
      Except.ok
        { results := [{ id := "c1" }, { id := "c2" }, { id := "c3" },
            { id := "c4" }, { id := "c5" }],
          meta := { count := 7,
                    page := 1,
                    perPage := 25,
                    nextCursor := some "cursor1",
                    url := some (appendCursorToUrl
                      (buildUrl "h" "works" none none [] none none) (some 200) "*") } } ∧
    (worksM "h" 1
        { retriveAllPages := true, chunkSize := some 3, toCsv := some "out" }
        (chainGet (buildUrl "h" "works" none none [] none none) (some 200)
          [{ results := [{ id := "c1" }, { id := "c2" }, { id := "c3" }, { id := "c4" },
              { id := "c5" }], meta := { count := 7, nextCursor := some "cursor1" } },
           { results := [{ id := "c6" }, { id := "c7" }],
             meta := { count := 7 } }])).exports =
      [("out_1.csv", [{ id := "c1" }, { id := "c2" }, { id := "c3" }]),
       ("out_2.csv", [{ id := "c4" }, { id := "c5" }, { id := "c6" }]),
       ("out_3.csv", [{ id := "c7" }]),
       ("out.csv", [{ id := "c1" }, { id := "c2" }, { id := "c3" }, { id := "c4" },
          { id := "c5" }])] :=
  ⟨rfl, rfl⟩

/-- Claim C7 (amended): a chunked drain (`retriveAllPages` with
`chunkSize`) flushes to the export sink exactly the chunk decomposition of
the drained results — a chunk of exactly `chunkSize` each time the
accumulated count reaches `chunkSize`, the final partial chunk at the end,
chunk index appended to the filename — but what the caller receives is not
nothing: the call returns the first fetched page's results (themselves the
seed of the collected drain), and the facade additionally writes that
first page to the un-indexed export file. -/
theorem works_chunked_drain (base : String) (pv : Option Nat) (fuel cs : Nat)
    (name : String) (p0 : Works) (rest : List Works) (get : String → Resp Works)
    (hs : serves get (buildUrl base "works" none none [] none none) (some 200)
      (p0 :: rest))
    (hc : chained (p0 :: rest))
    (hcs : 0 < cs) (hfuel : rest.length ≤ fuel) :
    (worksM base fuel
        { perPage := pv, retriveAllPages := true, chunkSize := some cs,
          toCsv := some name } get).exports =
      flushEvents none (some name) 1 (chunksOf cs (flatRes (p0 :: rest) 0)) ++
        [(name ++ ".csv", p0.results)] ∧
    (worksM base fuel
        { perPage := pv, retriveAllPages := true, chunkSize := some cs,
          toCsv := some name } get).result =
      Except.ok
        { results := p0.results,
          meta := { p0.meta with
                    page := 1,
                    url := some (appendCursorToUrl
                      (buildUrl base "works" none none [] none none) (some 200) "*") } } ∧
    (chunksOf cs (flatRes (p0 :: rest) 0)).flatten = flatRes (p0 :: rest) 0 ∧
    (∀ c ∈ (chunksOf cs (flatRes (p0 :: rest) 0)).dropLast, c.length = cs) := by
  have h0 : get (appendCursorToUrl (buildUrl base "works" none none [] none none)
      (some 200) "*") = ⟨200, "OK", p0⟩ := by
    have := hs 0 (by simp)
    simpa [cursorName] using this
  have hnext0 : p0.meta.nextCursor = chainCursor (p0 :: rest) 1 := by
    have := hc 0 (by simp)
    simpa using this
  have hflat : p0.results ++ flatRes (p0 :: rest) 1 = flatRes (p0 :: rest) 0 := by
    simp [flatRes]
  have hH := handleAllPagesInChunks_chain get
    (buildUrl base "works" none none [] none none) (some 200) (p0 :: rest) cs
    none (some name) fuel
    { results := p0.results,
      meta := { count := p0.meta.count, page := 1, perPage := p0.meta.perPage,
                nextCursor := p0.meta.nextCursor, url := p0.meta.url } }
    hs hc hcs (by simpa using hnext0) (by simp; omega)
  refine ⟨?_, ?_, chunksOf_flatten cs _, chunksOf_dropLast_sizes cs _⟩ <;>
    simp [worksM, validateParameters, truthyNat, getCursorByPage, h0, finalExports,
      hH.2, hflat]

/-- Witness for the C7 theorem: a 7-result collection (pages of 5 and 2)
with chunk size 3 flushes chunks of 3, 3 and 1. -/
theorem works_chunked_drain_witness :
    (serves (chainGet (buildUrl "h" "works" none none [] none none) (some 200)
        [{ results := [{ id := "c1" }, { id := "c2" }, { id := "c3" }, { id := "c4" },
            { id := "c5" }], meta := { count := 7, nextCursor := some "cursor1" } },
         { results := [{ id := "c6" }, { id := "c7" }], meta := { count := 7 } }])
        (buildUrl "h" "works" none none [] none none) (some 200)
        [{ results := [{ id := "c1" }, { id := "c2" }, { id := "c3" }, { id := "c4" },
            { id := "c5" }], meta := { count := 7, nextCursor := some "cursor1" } },
         { results := [{ id := "c6" }, { id := "c7" }], meta := { count := 7 } }] ∧
      chained
        [{ results := [{ id := "c1" }, { id := "c2" }, { id := "c3" }, { id := "c4" },
            { id := "c5" }], meta := { count := 7, nextCursor := some "cursor1" } },
         { results := [{ id := "c6" }, { id := "c7" }], meta := { count := 7 } }] ∧
      0 < 3 ∧
      ([{ results := [{ id := "c6" }, { id := "c7" }],
          meta := { count := 7 } }] : List Works).length ≤ 1) ∧
    ((worksM "h" 1
        { perPage := some 9, retriveAllPages := true, chunkSize := some 3,
          toCsv := some "out" }
        (chainGet (buildUrl "h" "works" none none [] none none) (some 200)
          [{ results := [{ id := "c1" }, { id := "c2" }, { id := "c3" }, { id := "c4" },
              { id := "c5" }], meta := { count := 7, nextCursor := some "cursor1" } },
           { results := [{ id := "c6" }, { id := "c7" }],
             meta := { count := 7 } }])).exports =
      flushEvents none (some "out") 1
          (chunksOf 3 (flatRes
            [{ results := [{ id := "c1" }, { id := "c2" }, { id := "c3" }, { id := "c4" },
                { id := "c5" }], meta := { count := 7, nextCursor := some "cursor1" } },
             { results := [{ id := "c6" }, { id := "c7" }],
               meta := { count := 7 } }] 0)) ++
        [("out" ++ ".csv",
          [{ id := "c1" }, { id := "c2" }, { id := "c3" }, { id := "c4" },
           { id := "c5" }])] ∧
      (worksM "h" 1
        { perPage := some 9, retriveAllPages := true, chunkSize := some 3,
          toCsv := some "out" }
        (chainGet (buildUrl "h" "works" none none [] none none) (some 200)
          [{ results := [{ id := "c1" }, { id := "c2" }, { id := "c3" }, { id := "c4" },
              { id := "c5" }], meta := { count := 7, nextCursor := some "cursor1" } },
           { results := [{ id := "c6" }, { id := "c7" }],
             meta := { count := 7 } }])).result =
      Except.ok
        { results := [{ id := "c1" }, { id := "c2" }, { id := "c3" },
            { id := "c4" }, { id := "c5" }],
          meta := { count := 7,
                    page := 1,
                    perPage := 25,
                    nextCursor := some "cursor1",
                    url := some (appendCursorToUrl
                      (buildUrl "h" "works" none none [] none none) (some 200) "*") } } ∧
      (chunksOf 3 (flatRes
          [{ results := [{ id := "c1" }, { id := "c2" }, { id := "c3" }, { id := "c4" },
              { id := "c5" }], meta := { count := 7, nextCursor := some "cursor1" } },
           { results := [{ id := "c6" }, { id := "c7" }],
             meta := { count := 7 } }] 0)).flatten =
        flatRes
          [{ results := [{ id := "c1" }, { id := "c2" }, { id := "c3" }, { id := "c4" },
              { id := "c5" }], meta := { count := 7, nextCursor := some "cursor1" } },
           { results := [{ id := "c6" }, { id := "c7" }],
             meta := { count := 7 } }] 0 ∧
      (∀ c ∈ (chunksOf 3 (flatRes
          [{ results := [{ id := "c1" }, { id := "c2" }, { id := "c3" }, { id := "c4" },
              { id := "c5" }], meta := { count := 7, nextCursor := some "cursor1" } },
           { results := [{ id := "c6" }, { id := "c7" }],
             meta := { count := 7 } }] 0)).dropLast, c.length = 3)) :=
  ⟨⟨by
      intro k h
      have h2 : k < 2 := by simpa using h
      interval_cases k <;> rfl,
    by
      intro k h
      have h2 : k < 2 := by simpa using h
      interval_cases k <;> rfl,
    by decide, by decide⟩,
    works_chunked_drain "h" (some 9) 1 3 "out"
      { results := [{ id := "c1" }, { id := "c2" }, { id := "c3" }, { id := "c4" },
          { id := "c5" }], meta := { count := 7, nextCursor := some "cursor1" } }
      [{ results := [{ id := "c6" }, { id := "c7" }], meta := { count := 7 } }]
      (chainGet (buildUrl "h" "works" none none [] none none) (some 200)
        [{ results := [{ id := "c1" }, { id := "c2" }, { id := "c3" }, { id := "c4" },
            { id := "c5" }], meta := { count := 7, nextCursor := some "cursor1" } },
         { results := [{ id := "c6" }, { id := "c7" }], meta := { count := 7 } }])
      (by
        intro k h
        have h2 : k < 2 := by simpa using h
        interval_cases k <;> rfl)
      (by
        intro k h
        have h2 : k < 2 := by simpa using h
        interval_cases k <;> rfl)
      (by decide) (by decide)⟩

/-- Pointwise shape of the AbstractArrayToString post-processing: the
inverted index is removed from every result, a converted abstract is added
exactly to the results that had one, and every other field — and the
number and order of results — is unchanged. -/
theorem abstractTransform_forall₂ (l : List Work) :
    List.Forall₂
      (fun w w2 =>
        w2.abstract_inverted_index = none ∧
        (∀ idx, w.abstract_inverted_index = some idx →
          w2.abstract = some (convertAbstractArrayToString idx)) ∧
        (w.abstract_inverted_index = none → w2.abstract = w.abstract) ∧
        w2.id = w.id ∧ w2.display_name = w.display_name ∧
        w2.biblio = w.biblio ∧ w2.counts_by_year = w.counts_by_year)
      l (l.map abstractTransform) := by
  induction l with
  | nil => simp
  | cons w ws ih =>
    refine List.Forall₂.cons ?_ ih
    cases hw : w.abstract_inverted_index <;> simp [abstractTransform, hw]

/-- Claim C10: a `works` request with `AbstractArrayToString` set returns
the fetched page with every result's `abstract_inverted_index` removed,
an `abstract` holding the converted plain text added to exactly the
results that had an inverted index, and the result count, order and all
other fields unchanged. -/
theorem works_abstract_array_to_string (base : String) (pv : Option Nat)
    (fuel : Nat) (pg : Works) (get : String → Resp Works)
    (hget : get (appendCursorToUrl (buildUrl base "works" none none [] none none) pv "*")
      = ⟨200, "OK", pg⟩) :
    (worksM base fuel { perPage := pv, page := some 1, AbstractArrayToString := true }
        get).result =
      Except.ok
        { results := pg.results.map abstractTransform,
          meta := { pg.meta with
                    page := 1,
                    url := some (appendCursorToUrl
                      (buildUrl base "works" none none [] none none) pv "*") } } ∧
    (pg.results.map abstractTransform).length = pg.results.length ∧
    List.Forall₂
      (fun w w2 =>
        w2.abstract_inverted_index = none ∧
        (∀ idx, w.abstract_inverted_index = some idx →
          w2.abstract = some (convertAbstractArrayToString idx)) ∧
        (w.abstract_inverted_index = none → w2.abstract = w.abstract) ∧
        w2.id = w.id ∧ w2.display_name = w.display_name ∧
        w2.biblio = w.biblio ∧ w2.counts_by_year = w.counts_by_year)
      pg.results (pg.results.map abstractTransform) := by
  refine ⟨?_, List.length_map _ _, abstractTransform_forall₂ pg.results⟩
  simp [worksM, validateParameters, truthyNat, getCursorByPage, hget]

/-- Witness for the C10 theorem at a concrete page with one
inverted-index abstract and one result without. -/
theorem works_abstract_array_to_string_witness :
    ((fun _ : String =>
        (⟨200, "OK",
          { results :=
              [{ id := "x1",
                 abstract_inverted_index := some [("hello", [0]), ("world", [1])] },
               { id := "x2" }],
            meta := { count := 2 } }⟩ : Resp Works))
      (appendCursorToUrl (buildUrl "h" "works" none none [] none none) (some 2) "*") =
      ⟨200, "OK",
        { results :=
            [{ id := "x1",
               abstract_inverted_index := some [("hello", [0]), ("world", [1])] },
             { id := "x2" }],
          meta := { count := 2 } }⟩) ∧
    ((worksM "h" 0 { perPage := some 2, page := some 1, AbstractArrayToString := true }
        (fun _ =>
          (⟨200, "OK",
            { results :=
                [{ id := "x1",
                   abstract_inverted_index := some [("hello", [0]), ("world", [1])] },
                 { id := "x2" }],
              meta := { count := 2 } }⟩ : Resp Works))).result =
      Except.ok
        { results :=
            ([{ id := "x1",
                abstract_inverted_index := some [("hello", [0]), ("world", [1])] },
              { id := "x2" }] : List Work).map abstractTransform,
          meta := { count := 2,
                    page := 1,
                    perPage := 25,
                    nextCursor := none,
                    url := some (appendCursorToUrl
                      (buildUrl "h" "works" none none [] none none) (some 2) "*") } } ∧
      (([{ id := "x1",
           abstract_inverted_index := some [("hello", [0]), ("world", [1])] },
         { id := "x2" }] : List Work).map abstractTransform).length =
        ([{ id := "x1",
            abstract_inverted_index := some [("hello", [0]), ("world", [1])] },
          { id := "x2" }] : List Work).length ∧
      List.Forall₂
        (fun w w2 =>
          w2.abstract_inverted_index = none ∧
          (∀ idx, w.abstract_inverted_index = some idx →
            w2.abstract = some (convertAbstractArrayToString idx)) ∧
          (w.abstract_inverted_index = none → w2.abstract = w.abstract) ∧
          w2.id = w.id ∧ w2.display_name = w.display_name ∧
          w2.biblio = w.biblio ∧ w2.counts_by_year = w.counts_by_year)
        ([{ id := "x1",
            abstract_inverted_index := some [("hello", [0]), ("world", [1])] },
          { id := "x2" }] : List Work)
        (([{ id := "x1",
             abstract_inverted_index := some [("hello", [0]), ("world", [1])] },
           { id := "x2" }] : List Work).map abstractTransform)) :=
  ⟨rfl,
    works_abstract_array_to_string "h" (some 2) 0
      { results :=
          [{ id := "x1",
             abstract_inverted_index := some [("hello", [0]), ("world", [1])] },
           { id := "x2" }],
        meta := { count := 2 } }
      (fun _ =>
        (⟨200, "OK",
          { results :=
              [{ id := "x1",
                 abstract_inverted_index := some [("hello", [0]), ("world", [1])] },
               { id := "x2" }],
            meta := { count := 2 } }⟩ : Resp Works))
      rfl⟩

end OpenAlexSDK
